import Mathlib

/-!
Verification of the memory subsystem of the agents-os repository
(leader-toolbox/memory-py) against its natural-language specification.

The Python code is shallowly embedded: SQLite tables become lists of rows,
floats become rationals, cryptographic hashes (md5/sha256) and uuid4 draws
become explicit function parameters (injective suppliers), exceptions become
Except/Option, and async methods become pure state-passing functions.
Every definition follows the corresponding Python function line by line;
the source file and function are named in each doc comment.
-/

/-- Embedding vectors (numpy float arrays in the source) are modelled as
lists of rationals. -/
abbrev Vec := List ℚ

/-- Inputs fed to a cryptographic hash function in the source.  The code
hashes either raw file/text content (md5 of the content in
FileProcessor._create_file_info / process_text) or a path:size:mtime
descriptor string (FileProcessor.get_file_hash).  The hash itself is a
parameter of the model; distinct constructors reflect that the two kinds of
hash input are distinct strings in Python (content would have to literally
equal the descriptor string for them to collide). -/
inductive HashInput where
  | content (text : String)
  | statLine (path : String) (size : Nat) (mtime : ℚ)
deriving DecidableEq, Repr

/-- Python dict assignment d[k] = v: overwrite in place if the key is
present (dicts keep the original insertion position), append otherwise. -/
def dinsert {α : Type} (m : List (String × α)) (k : String) (v : α) :
    List (String × α) :=
  if m.any (fun p => p.1 == k) then
    m.map (fun p => if p.1 == k then (p.1, v) else p)
  else m ++ [(k, v)]

/-- Python dict.get(k, 0) for numeric dicts. -/
def dgetQ (m : List (String × ℚ)) (k : String) : ℚ :=
  match m.find? (fun p => p.1 == k) with
  | some p => p.2
  | none => 0

/-- Python dict.get(k, 0) for counters. -/
def dgetN (m : List (String × Nat)) (k : String) : Nat :=
  match m.find? (fun p => p.1 == k) with
  | some p => p.2
  | none => 0

/-- Row of the files table (memory/storage/sqlite_backend.py, _create_schema:
id TEXT PRIMARY KEY, path TEXT UNIQUE, hash, size, mtime; the metadata and
timestamp columns are carried by no claim and are omitted). -/
structure FileRow where
  id : String
  path : String
  hash : String
  size : Nat
  mtime : ℚ
deriving DecidableEq, Repr

/-- Row of the chunks table (rowid INTEGER PRIMARY KEY AUTOINCREMENT,
id TEXT UNIQUE, file_id TEXT FK files(id) ON DELETE CASCADE, text,
embedding BLOB, start_char, end_char). -/
structure ChunkRow where
  rowid : Nat
  id : String
  file_id : String
  text : String
  embedding : Option Vec
  start_char : Nat
  end_char : Nat
deriving DecidableEq, Repr

/-- Chunk data handed to SQLiteBackend.add_chunk (ChunkInfo in
memory/models.py, minus the metadata/created_at columns no claim reads). -/
structure ChunkInfo where
  id : String
  file_id : String
  text : String
  start_char : Nat
  end_char : Nat
deriving DecidableEq, Repr

/-- Row of the embedding_cache table.  In the schema the PRIMARY KEY is the
hash column alone (sqlite_backend.py lines 127-135). -/
structure CacheRow where
  hash : String
  provider : String
  model : String
  embedding : Vec
deriving DecidableEq, Repr

/-- State of an initialized SQLiteBackend: the four stores (files, chunks,
chunks_fts full-text rows, chunks_vec vector rows), the embedding cache,
the next AUTOINCREMENT rowid, and the has_vector_support flag. -/
structure SQLiteBackend where
  files : List FileRow
  chunks : List ChunkRow
  chunks_fts : List (Nat × String)
  chunks_vec : List (Nat × Vec)
  embedding_cache : List CacheRow
  next_rowid : Nat
  has_vector_support : Bool
deriving DecidableEq, Repr

/-- Freshly initialized backend (empty schema, AUTOINCREMENT starts at 1). -/
def SQLiteBackend.empty (vecSupport : Bool) : SQLiteBackend :=
  { files := [], chunks := [], chunks_fts := [], chunks_vec := [],
    embedding_cache := [], next_rowid := 1, has_vector_support := vecSupport }

/-- SQLiteBackend.add_file: INSERT OR REPLACE INTO files.  REPLACE first
deletes any row violating a uniqueness constraint (id primary key or the
UNIQUE path column), then inserts.  The method also returns file_info.id,
which callers already hold, so the model returns the new state. -/
def SQLiteBackend.add_file (st : SQLiteBackend) (fi : FileRow) : SQLiteBackend :=
  { st with files :=
      st.files.filter (fun f => !(f.id == fi.id || f.path == fi.path)) ++ [fi] }

/-- SQLiteBackend.get_file_by_path: SELECT * FROM files WHERE path = ?. -/
def SQLiteBackend.get_file_by_path (st : SQLiteBackend) (path : String) :
    Option FileRow :=
  st.files.find? (fun f => f.path == path)

/-- SQLiteBackend.add_chunk: INSERT INTO chunks (rowid autoincrements),
then INSERT INTO chunks_fts(rowid, text), then - when vector support is on
and an embedding was provided - INSERT INTO chunks_vec(rowid, embedding). -/
def SQLiteBackend.add_chunk (st : SQLiteBackend) (c : ChunkInfo)
    (embedding : Option Vec) : SQLiteBackend :=
  let rowid := st.next_rowid
  let row : ChunkRow :=
    { rowid := rowid, id := c.id, file_id := c.file_id, text := c.text,
      embedding := embedding, start_char := c.start_char, end_char := c.end_char }
  let st1 := { st with chunks := st.chunks ++ [row], next_rowid := rowid + 1 }
  let st2 := { st1 with chunks_fts := st1.chunks_fts ++ [(rowid, c.text)] }
  match embedding with
  | some v =>
      if st2.has_vector_support then
        { st2 with chunks_vec := st2.chunks_vec ++ [(rowid, v)] }
      else st2
  | none => st2

/-- SQLiteBackend.delete_file: a single DELETE FROM files WHERE id = ?.
Chunk rows go away through the ON DELETE CASCADE foreign key (PRAGMA
foreign_keys = ON is set at initialization), but no statement touches
chunks_fts or chunks_vec.  Returns whether a file row was deleted. -/
def SQLiteBackend.delete_file (st : SQLiteBackend) (file_id : String) :
    Bool × SQLiteBackend :=
  let newFiles := st.files.filter (fun f => ¬ (f.id == file_id))
  let newChunks := st.chunks.filter (fun c => ¬ (c.file_id == file_id))
  (decide (newFiles.length < st.files.length),
   { st with files := newFiles, chunks := newChunks })

/-- SQLiteBackend.delete_chunks_by_file: collects the rowids of the file's
chunks, deletes those rowids from chunks_fts, deletes them from chunks_vec
when vector support is on, then deletes the chunk rows. -/
def SQLiteBackend.delete_chunks_by_file (st : SQLiteBackend) (file_id : String) :
    Nat × SQLiteBackend :=
  let rowids := (st.chunks.filter (fun c => c.file_id == file_id)).map (fun c => c.rowid)
  let fts := st.chunks_fts.filter (fun p => ¬ (rowids.contains p.1))
  let vec := if st.has_vector_support then
      st.chunks_vec.filter (fun p => ¬ (rowids.contains p.1))
    else st.chunks_vec
  let remaining := st.chunks.filter (fun c => ¬ (c.file_id == file_id))
  (st.chunks.length - remaining.length,
   { st with chunks := remaining, chunks_fts := fts, chunks_vec := vec })

/-- SQLiteBackend.get_cached_embedding: SELECT embedding FROM embedding_cache
WHERE hash = ? AND provider = ? AND model = ?. -/
def SQLiteBackend.get_cached_embedding (st : SQLiteBackend) (text_hash provider model : String) :
    Option Vec :=
  match st.embedding_cache.find? (fun r =>
      r.hash == text_hash && r.provider == provider && r.model == model) with
  | some r => some r.embedding
  | none => none

/-- SQLiteBackend.cache_embedding: INSERT OR REPLACE INTO embedding_cache.
The table's only uniqueness constraint is hash TEXT PRIMARY KEY, so REPLACE
evicts every existing row with the same hash regardless of provider/model. -/
def SQLiteBackend.cache_embedding (st : SQLiteBackend) (text_hash provider model : String)
    (embedding : Vec) : SQLiteBackend :=
  { st with embedding_cache :=
      st.embedding_cache.filter (fun r => ¬ (r.hash == text_hash)) ++
        [{ hash := text_hash, provider := provider, model := model,
           embedding := embedding }] }

/-- Concrete one-file one-chunk backend used to exercise delete_file:
file f1 at path p.txt, one chunk c1 with an embedding, vector support on. -/
def c1Backend : SQLiteBackend :=
  ((SQLiteBackend.empty true).add_file
      { id := "f1", path := "p.txt", hash := "h", size := 5, mtime := 0 }).add_chunk
    { id := "c1", file_id := "f1", text := "hello", start_char := 0, end_char := 5 }
    (some [1, 2])

/-- C1: FALSIFIED BY THE CODE.  The claim says SQLiteBackend.delete_file
removes the file row, the chunk rows, the chunks_fts rows and the chunks_vec
rows, leaving no reference to the deleted file in any of the four stores.
On a backend holding one file with one indexed chunk, delete_file does
delete the file row and (via the foreign-key cascade) the chunk row, but the
full-text row and the vector row of the deleted chunk survive untouched:
both stores still hold rowid 1 of the cascaded chunk.  (Compare
delete_chunks_by_file, which does clean both index tables.) -/
theorem C1_delete_file_leaves_index_rows :
    (c1Backend.delete_file "f1").2.files = [] ∧
    (c1Backend.delete_file "f1").2.chunks = [] ∧
    (c1Backend.delete_file "f1").2.chunks_fts = [(1, "hello")] ∧
    (c1Backend.delete_file "f1").2.chunks_vec = [(1, [1, 2])] := by
  refine ⟨?_, ?_, ?_, ?_⟩ <;> rfl

/-- C4: FALSIFIED BY THE CODE.  The claim says cache entries are keyed by
the full (hash, provider, model) triple, so entries for the same text hash
under different providers coexist.  Because the schema declares hash alone
as PRIMARY KEY and cache_embedding uses INSERT OR REPLACE, the second write
for the same hash evicts the first even though its provider and model
differ: the lookup for the original triple then returns nothing instead of
the first vector. -/
theorem C4_cache_replaces_across_providers :
    (((SQLiteBackend.empty false).cache_embedding "h1" "p" "m" [1]).cache_embedding
        "h1" "p2" "m2" [2]).get_cached_embedding "h1" "p" "m" = none ∧
    ((SQLiteBackend.empty false).cache_embedding "h1" "p" "m" [1]).get_cached_embedding
        "h1" "p" "m" = some [1] := by
  exact ⟨rfl, rfl⟩

/-- Statistics object returned by sync operations (SyncStats in
memory/models.py; every numeric field defaults to zero, errors to []). -/
structure SyncStats where
  files_processed : Nat := 0
  files_added : Nat := 0
  files_updated : Nat := 0
  files_deleted : Nat := 0
  chunks_created : Nat := 0
  embeddings_generated : Nat := 0
  processing_time_ms : ℚ := 0
  errors : List String := []
deriving DecidableEq, Repr

/-- Manager state relevant to sync_files: the storage backend, the single
in-flight flag and the last_sync timestamp (MemoryManager.__init__ sets
sync_in_progress = False, last_sync = None). -/
structure MemoryManager where
  storage : SQLiteBackend
  sync_in_progress : Bool
  last_sync : Option ℚ
deriving DecidableEq, Repr

/-- MemoryManager.sync_files (memory/manager.py lines 411-457), with the
directory walk and per-file ingestion abstracted into the body argument
(the body is _sync_files applied to the discovered files; it may update
storage or raise).  If sync_in_progress is set, the method returns
SyncStats(files_processed=0) at once and changes nothing.  Otherwise it
sets the flag, runs the body with the flag set, records last_sync on
success, and - in a finally block - clears the flag whether or not the
body raised. -/
def MemoryManager.sync_files
    (body : SQLiteBackend → Except String (SyncStats × SQLiteBackend))
    (now : ℚ) (m : MemoryManager) : Except String SyncStats × MemoryManager :=
  if m.sync_in_progress then
    (Except.ok { files_processed := 0 }, m)
  else
    let mRunning := { m with sync_in_progress := true }
    match body mRunning.storage with
    | Except.ok (stats, storage2) =>
        (Except.ok stats,
         { mRunning with storage := storage2, last_sync := some now,
                         sync_in_progress := false })
    | Except.error e =>
        (Except.error e, { mRunning with sync_in_progress := false })

/-- C9: the sync guard.  When a sync is already in flight, a second
sync_files call returns a zero-progress SyncStats (all counters zero) and
the manager state, storage included, is exactly the state before the call:
no ingestion, no storage mutation.  When no sync is in flight, the body
runs against a state whose flag is set, and the flag is cleared in the
resulting state whether the body succeeded or raised. -/
theorem C9_sync_in_flight_guard
    (body : SQLiteBackend → Except String (SyncStats × SQLiteBackend))
    (now : ℚ) (m : MemoryManager) :
    (m.sync_in_progress = true →
      MemoryManager.sync_files body now m =
        (Except.ok { files_processed := 0 }, m)) ∧
    (m.sync_in_progress = false →
      ({ m with sync_in_progress := true } : MemoryManager).sync_in_progress = true ∧
      (MemoryManager.sync_files body now m).2.sync_in_progress = false) := by
  constructor
  · intro h
    simp [MemoryManager.sync_files, h]
  · intro h
    refine ⟨rfl, ?_⟩
    simp only [MemoryManager.sync_files, h, Bool.false_eq_true, if_false]
    cases body ({ m with sync_in_progress := true } : MemoryManager).storage with
    | ok v => rfl
    | error e => rfl

/-- Witness for C9 at a concrete manager: a second sync while one is in
flight returns zero-progress statistics and leaves the state alone, and a
sync from an idle manager (with a body that raises) still ends with the
flag cleared. -/
theorem C9_sync_in_flight_guard_witness :
    (MemoryManager.sync_files (fun s => Except.ok ({ files_added := 3 }, s)) 7
        { storage := SQLiteBackend.empty false, sync_in_progress := true,
          last_sync := none } =
      (Except.ok { files_processed := 0 },
        { storage := SQLiteBackend.empty false, sync_in_progress := true,
          last_sync := none })) ∧
    (MemoryManager.sync_files (fun _ => Except.error "boom") 7
        { storage := SQLiteBackend.empty false, sync_in_progress := false,
          last_sync := none }).2.sync_in_progress = false := by
  constructor
  · exact (C9_sync_in_flight_guard (fun s => Except.ok ({ files_added := 3 }, s)) 7
      { storage := SQLiteBackend.empty false, sync_in_progress := true,
        last_sync := none }).1 rfl
  · exact ((C9_sync_in_flight_guard (fun _ => Except.error "boom") 7
      { storage := SQLiteBackend.empty false, sync_in_progress := false,
        last_sync := none }).2 rfl).2

/-- Search options (SearchOptions in memory/models.py).  The sources field
carries no validation and is omitted by every claim, so it is dropped. -/
structure SearchOptions where
  mode : String
  max_results : Nat
  min_score : ℚ
  vector_weight : Option ℚ
  keyword_weight : Option ℚ
deriving DecidableEq, Repr

/-- Pydantic construction of SearchOptions: field constraints in declaration
order (mode a literal of the three modes, 1 <= max_results <= 100,
0 <= min_score <= 1, each given weight within [0,1]), then the
validate_weights_sum validator, which rejects when both weights are given
and their sum differs from 1.0 by more than 0.001. -/
def SearchOptions.validate (mode : String) (max_results : Nat) (min_score : ℚ)
    (vector_weight keyword_weight : Option ℚ) : Except String SearchOptions :=
  if ¬ (mode = "vector" ∨ mode = "keyword" ∨ mode = "hybrid") then
    Except.error "mode must be vector, keyword or hybrid"
  else if ¬ (1 ≤ max_results ∧ max_results ≤ 100) then
    Except.error "max_results out of range"
  else if ¬ (0 ≤ min_score ∧ min_score ≤ 1) then
    Except.error "min_score out of range"
  else if ¬ (∀ w ∈ vector_weight, 0 ≤ w ∧ w ≤ 1) then
    Except.error "vector_weight out of range"
  else if ¬ (∀ w ∈ keyword_weight, 0 ≤ w ∧ w ≤ 1) then
    Except.error "keyword_weight out of range"
  else
    match vector_weight, keyword_weight with
    | some vw, some kw =>
        if 1 / 1000 < |vw + kw - 1| then
          Except.error "Vector weight and keyword weight must sum to 1.0"
        else
          Except.ok { mode := mode, max_results := max_results,
                      min_score := min_score, vector_weight := vector_weight,
                      keyword_weight := keyword_weight }
    | _, _ =>
        Except.ok { mode := mode, max_results := max_results,
                    min_score := min_score, vector_weight := vector_weight,
                    keyword_weight := keyword_weight }

/-- Success test for a pydantic construction. -/
def constructionOk {α : Type} : Except String α → Bool
  | Except.ok _ => true
  | Except.error _ => false

/-- C8: constructing SearchOptions with vector_weight = 0.6 and
keyword_weight = 0.3 fails (their sum 0.9 misses 1.0 by more than the 0.001
tolerance), and in general, for weights inside their declared [0,1] field
bounds, construction succeeds exactly when the sum is within 0.001 of 1.0. -/
theorem C8_search_weight_validation :
    constructionOk
      (SearchOptions.validate "hybrid" 10 (3/10) (some (3/5)) (some (3/10))) = false ∧
    ∀ vw kw : ℚ, 0 ≤ vw → vw ≤ 1 → 0 ≤ kw → kw ≤ 1 →
      (constructionOk
          (SearchOptions.validate "hybrid" 10 (3/10) (some vw) (some kw)) = true ↔
        |vw + kw - 1| ≤ 1 / 1000) := by
  constructor
  · have h1 : |(3:ℚ)/5 + 3/10 - 1| = 1/10 := by norm_num [abs_of_nonpos]
    simp only [SearchOptions.validate]
    norm_num [h1, constructionOk]
    rw [abs_of_nonneg (by norm_num : (0:ℚ) ≤ 1/10), if_pos (by norm_num : (1:ℚ)/1000 < 1/10)]
  · intro vw kw h0v h1v h0k h1k
    simp only [SearchOptions.validate, Option.mem_def, Option.some.injEq,
      forall_eq']
    have hb1 : ¬ ¬ ((0:ℚ) ≤ vw ∧ vw ≤ 1) := by simp [h0v, h1v]
    have hb2 : ¬ ¬ ((0:ℚ) ≤ kw ∧ kw ≤ 1) := by simp [h0k, h1k]
    norm_num [h0v, h1v, h0k, h1k]
    constructor
    · intro h
      by_contra hgt
      rw [if_pos (lt_of_not_le hgt)] at h
      simp [constructionOk] at h
    · intro h
      rw [if_neg (not_lt_of_le h)]
      rfl

/-- Witness for C8: weights 0.7 and 0.3 are in bounds, sum exactly to 1,
and construction succeeds. -/
theorem C8_search_weight_validation_witness :
    constructionOk
      (SearchOptions.validate "hybrid" 10 (3/10) (some ((7:ℚ)/10)) (some (3/10))) = true := by
  have h := C8_search_weight_validation.2 (7/10) (3/10)
    (by norm_num) (by norm_num) (by norm_num) (by norm_num)
  rw [h]
  norm_num

/-- Result of os.stat plus the readable content of a file on disk; the
filesystem is a partial map from paths (None = file missing or raising). -/
structure FStat where
  size : Nat
  mtime : ℚ
  content : String
deriving DecidableEq, Repr

/-- FileProcessor.get_file_hash (file_processor.py lines 296-311): md5 of
the string f"{file_path}:{stat.st_size}:{stat.st_mtime}" - a fingerprint of
path, size and mtime, NOT of the file content.  md5 is the model
parameter. -/
def FileProcessor.get_file_hash (md5 : HashInput → String)
    (fs : String → Option FStat) (path : String) : Option String :=
  match fs path with
  | some st => some (md5 (HashInput.statLine path st.size st.mtime))
  | none => none

/-- Content hash stored for a file at ingestion time
(FileProcessor._create_file_info and process_text): md5 of the content. -/
def FileProcessor.content_hash (md5 : HashInput → String) (content : String) :
    String :=
  md5 (HashInput.content content)

/-- FileProcessor.is_file_changed (file_processor.py lines 313-342): True
for a missing/unreadable file; True when the mtime differs from the stored
one by more than 1 second; otherwise compares get_file_hash - the
path:size:mtime fingerprint - against the stored hash and reports changed
on mismatch. -/
def FileProcessor.is_file_changed (md5 : HashInput → String)
    (fs : String → Option FStat) (path : String)
    (stored_hash : String) (stored_mtime : ℚ) : Bool :=
  match fs path with
  | none => true
  | some st =>
      if 1 < |st.mtime - stored_mtime| then true
      else decide (md5 (HashInput.statLine path st.size st.mtime) ≠ stored_hash)

/-- C2: FALSIFIED BY THE CODE.  The hash stored at ingestion is the md5 of
the file CONTENT, but is_file_changed compares it against get_file_hash,
the md5 of the path:size:mtime descriptor.  For a byte-identical file whose
stat has not moved at all (mtime difference 0, same size, same content),
the quick mtime check passes, yet the hash comparison then matches two
hashes of different inputs, so - unless md5 collides on them - the file is
always reported changed.  MemoryManager.ingest_file therefore never takes
the unchanged-skip branch: it deletes the stored chunks and re-ingests,
instead of returning the existing file_id with zero new chunks. -/
theorem C2_unchanged_file_reported_changed (md5 : HashInput → String)
    (fs : String → Option FStat) (path : String) (st : FStat)
    (hfs : fs path = some st)
    (hnocollide :
      md5 (HashInput.statLine path st.size st.mtime) ≠
        md5 (HashInput.content st.content)) :
    FileProcessor.is_file_changed md5 fs path
      (FileProcessor.content_hash md5 st.content) st.mtime = true := by
  simp only [FileProcessor.is_file_changed, hfs, FileProcessor.content_hash]
  rw [if_neg (by simp)]
  simpa using hnocollide

/-- Witness for C2, with md5 instantiated as an injective encoding of the
hash input (a stand-in for a collision-free md5): the file at p.txt has
content "hello", size 5, mtime 100, its stored content hash is the hash of
"hello", nothing on disk changed, and is_file_changed still answers true. -/
theorem C2_unchanged_file_reported_changed_witness :
    FileProcessor.is_file_changed
      (fun h => match h with
        | HashInput.content t => "c:" ++ t
        | HashInput.statLine p s m => "s:" ++ p ++ ":" ++ toString s ++ ":" ++ toString m)
      (fun p => if p = "p.txt" then some { size := 5, mtime := 100, content := "hello" } else none)
      "p.txt"
      (FileProcessor.content_hash
        (fun h => match h with
          | HashInput.content t => "c:" ++ t
          | HashInput.statLine p s m => "s:" ++ p ++ ":" ++ toString s ++ ":" ++ toString m)
        "hello")
      100 = true := by
  exact C2_unchanged_file_reported_changed
    (fun h => match h with
      | HashInput.content t => "c:" ++ t
      | HashInput.statLine p s m => "s:" ++ p ++ ":" ++ toString s ++ ":" ++ toString m)
    (fun p => if p = "p.txt" then some { size := 5, mtime := 100, content := "hello" } else none)
    "p.txt" { size := 5, mtime := 100, content := "hello" } (by simp)
    (by decide)

/-- An embedding provider as the manager sees it (memory/embeddings/base.py):
its name and model identity, its embed method (None models a raised
exception), and compute_text_hash (sha256 of the text in the source,
carried here as a function parameter). -/
structure EmbeddingProvider where
  name : String
  model : String
  embedFn : List String → Option (List Vec)
  compute_text_hash : String → String

/-- State of an EmbeddingManager (memory/embeddings/manager.py __init__ and
initialize): provider registry in registration order, per-provider
availability flags and failure counters, primary/fallback names, the
cache_enabled flag and the optional storage backend used for caching. -/
structure EmbeddingManager where
  primary_provider_name : String
  fallback_provider_name : String
  cache_enabled : Bool
  storage_backend : Option SQLiteBackend
  providers : List (String × EmbeddingProvider)
  provider_status : List (String × Bool)
  failure_counts : List (String × Nat)

/-- EmbeddingManager.max_failures = 2. -/
def EmbeddingManager.max_failures : Nat := 2

/-- EmbeddingManager._is_provider_available: registered, last known healthy,
and under the failure threshold. -/
def EmbeddingManager.is_provider_available (m : EmbeddingManager)
    (provider_name : String) : Bool :=
  m.providers.any (fun p => p.1 == provider_name) &&
    ((m.provider_status.find? (fun p => p.1 == provider_name)).map (fun p => p.2)
      |>.getD false) &&
    decide (dgetN m.failure_counts provider_name < EmbeddingManager.max_failures)

/-- EmbeddingManager._record_failure: bump the provider's failure counter
and mark it unavailable once the counter reaches max_failures. -/
def EmbeddingManager.record_failure (m : EmbeddingManager)
    (provider_name : String) : EmbeddingManager :=
  let c := dgetN m.failure_counts provider_name + 1
  let m1 := { m with failure_counts := dinsert m.failure_counts provider_name c }
  if EmbeddingManager.max_failures ≤ c then
    { m1 with provider_status := dinsert m1.provider_status provider_name false }
  else m1

/-- Emergency stage of EmbeddingManager._generate_embeddings: walk the
provider registry in registration order, skipping the primary and fallback
names, trying every still-available provider and recording each failure. -/
def EmbeddingManager.emergency_providers (texts : List String) :
    List (String × EmbeddingProvider) → EmbeddingManager →
      Except Unit (List Vec) × EmbeddingManager
  | [], m => (Except.error (), m)
  | (nm, prov) :: rest, m =>
      if nm ≠ m.primary_provider_name ∧ nm ≠ m.fallback_provider_name ∧
          m.is_provider_available nm then
        match prov.embedFn texts with
        | some embs => (Except.ok embs, m)
        | none => EmbeddingManager.emergency_providers texts rest (m.record_failure nm)
      else EmbeddingManager.emergency_providers texts rest m

/-- EmbeddingManager._generate_embeddings: try the primary provider, on
exception record the failure and fall through; try the fallback provider if
distinct and available, again recording a failure on exception; then try
any other registered available provider; if everything failed raise
(RuntimeError in the source, modelled as Except.error). -/
def EmbeddingManager.generate_embeddings (m : EmbeddingManager)
    (texts : List String) : Except Unit (List Vec) × EmbeddingManager :=
  let afterPrimary : EmbeddingManager × Option (List Vec) :=
    if m.is_provider_available m.primary_provider_name then
      match m.providers.find? (fun p => p.1 == m.primary_provider_name) with
      | some (_, prov) =>
          match prov.embedFn texts with
          | some embs => (m, some embs)
          | none => (m.record_failure m.primary_provider_name, none)
      | none => (m, none)
    else (m, none)
  match afterPrimary with
  | (_, some embs) => (Except.ok embs, afterPrimary.1)
  | (m1, none) =>
      let afterFallback : EmbeddingManager × Option (List Vec) :=
        if m.fallback_provider_name ≠ m.primary_provider_name ∧
            m1.is_provider_available m.fallback_provider_name then
          match m1.providers.find? (fun p => p.1 == m.fallback_provider_name) with
          | some (_, prov) =>
              match prov.embedFn texts with
              | some embs => (m1, some embs)
              | none => (m1.record_failure m.fallback_provider_name, none)
          | none => (m1, none)
        else (m1, none)
      match afterFallback with
      | (_, some embs) => (Except.ok embs, afterFallback.1)
      | (m2, none) => EmbeddingManager.emergency_providers texts m2.providers m2

/-- EmbeddingManager._get_cached_embeddings: None when there is no storage
backend or the primary provider is not registered; otherwise look each text
up under (primary.compute_text_hash text, primary.name, primary.model) and
return the hit list (None at each miss) together with the miss indices. -/
def EmbeddingManager.get_cached_embeddings (m : EmbeddingManager)
    (texts : List String) : Option (List (Option Vec) × List Nat) :=
  match m.storage_backend with
  | none => none
  | some storage =>
      match m.providers.find? (fun p => p.1 == m.primary_provider_name) with
      | none => none
      | some (_, primary) =>
          let hits := texts.map (fun t =>
            storage.get_cached_embedding (primary.compute_text_hash t)
              primary.name primary.model)
          let misses := (texts.enum.filter (fun p =>
            (storage.get_cached_embedding (primary.compute_text_hash p.2)
              primary.name primary.model).isNone)).map (fun p => p.1)
          some (hits, misses)

/-- EmbeddingManager._cache_embeddings: write each (text, embedding) pair
back to the cache under the primary provider's hash/name/model; no-op when
there is no storage backend, the list lengths differ, or the primary
provider is missing. -/
def EmbeddingManager.cache_embeddings (m : EmbeddingManager)
    (texts : List String) (embeddings : List Vec) : EmbeddingManager :=
  match m.storage_backend with
  | none => m
  | some storage =>
      if texts.length ≠ embeddings.length then m
      else
        match m.providers.find? (fun p => p.1 == m.primary_provider_name) with
        | none => m
        | some (_, primary) =>
            let storage2 := (texts.zip embeddings).foldl
              (fun s p => s.cache_embedding (primary.compute_text_hash p.1)
                primary.name primary.model p.2) storage
            { m with storage_backend := some storage2 }

/-- The reassembly loop of EmbeddingManager.embed (lines 118-130): result
starts as [None]*len(texts); at a miss index the next fresh embedding is
taken, at every other index cache_hits[cache_idx] is taken, where cache_idx
counts the hits consumed so far - even though cache_hits has one entry for
EVERY input position (None at the misses). -/
def EmbeddingManager.merge_in_order (n : Nat) (misses : List Nat)
    (hits : List (Option Vec)) (fresh : List Vec) : List (Option Vec) :=
  ((List.range n).foldl (fun acc i =>
      match acc with
      | (result, miss_idx, cache_idx) =>
          if misses.contains i then
            (result ++ [some (fresh.getD miss_idx [])], miss_idx + 1, cache_idx)
          else
            (result ++ [hits.getD cache_idx none], miss_idx, cache_idx + 1))
    ([], 0, 0)).1

/-- EmbeddingManager.embed: empty input short-circuits, the cache is probed
when enabled and backed by storage, fresh embeddings are generated for the
misses only and written back, and the final list is assembled by
merge_in_order; with no cache the whole batch goes through
_generate_embeddings.  A generated vector appears as some v, matching the
heterogeneous Python list that can also carry None entries from the hit
list. -/
def EmbeddingManager.embed (m : EmbeddingManager) (texts : List String) :
    Except Unit (List (Option Vec)) × EmbeddingManager :=
  if texts = [] then (Except.ok [], m)
  else
    match (if m.cache_enabled && m.storage_backend.isSome then
        m.get_cached_embeddings texts else none) with
    | some (hits, misses) =>
        if misses = [] then (Except.ok hits, m)
        else
          let missTexts := misses.map (fun i => texts.getD i "")
          match m.generate_embeddings missTexts with
          | (Except.error e, m1) => (Except.error e, m1)
          | (Except.ok fresh, m1) =>
              if fresh ≠ [] then
                let m2 := m1.cache_embeddings missTexts fresh
                (Except.ok (EmbeddingManager.merge_in_order texts.length misses hits fresh),
                 m2)
              else
                match m1.generate_embeddings texts with
                | (Except.ok embs, m2) => (Except.ok (embs.map some), m2)
                | (Except.error e, m2) => (Except.error e, m2)
    | none =>
        match m.generate_embeddings texts with
        | (Except.ok embs, m1) => (Except.ok (embs.map some), m1)
        | (Except.error e, m1) => (Except.error e, m1)

/-- Manager used to exercise the cache-merge path: one provider (primary =
fallback) that always succeeds with the vector [0] for every text, caching
on, and a storage backend whose embedding cache holds a vector [99] for the
text B only (the text hash is modelled as the text itself; sha256 is
injective on these inputs).  For the input [A, B], A is a cache miss and B
a cache hit, a miss preceding a hit. -/
def c3Manager : EmbeddingManager :=
  { primary_provider_name := "st"
    fallback_provider_name := "st"
    cache_enabled := true
    storage_backend := some
      ((SQLiteBackend.empty false).cache_embedding "B" "st" "all-MiniLM-L6-v2" [99])
    providers := [("st",
      { name := "st", model := "all-MiniLM-L6-v2",
        embedFn := fun ts => some (ts.map (fun _ => [0])),
        compute_text_hash := fun t => t })]
    provider_status := [("st", true)]
    failure_counts := [("st", 0)] }

/-- C3: FALSIFIED BY THE CODE.  The claim says embed reassembles hits and
misses in the original input order, position i receiving the cached vector
when texts[i] was a hit.  The reassembly loop instead indexes the
full-length hit list (which carries None at every miss position) with a
counter that only counts hits consumed, so whenever a miss precedes a hit
the hit positions read the wrong entries.  Concretely, with texts [A, B]
where A misses and B hits with cached vector [99], embed returns the fresh
vector for A at position 0 but None - cache_hits[0], the miss placeholder -
at position 1 instead of the cached [99]. -/
theorem C3_merge_misindexes_hits :
    (c3Manager.embed ["A", "B"]).1 = Except.ok [some [0], none] ∧
    (c3Manager.embed ["A", "B"]).1 ≠ Except.ok [some [0], some [99]] := by
  constructor
  · rfl
  · intro h
    rw [(by rfl : (c3Manager.embed ["A", "B"]).1 = Except.ok [some [0], none])] at h
    simp at h

/-- Manager with an always-failing primary provider and a distinct
always-succeeding fallback provider, no cache storage, both providers
registered, healthy and with zero recorded failures (the state initialize
produces). -/
def c7Manager (pn fn : String) (ce : Bool)
    (pprov fprov : EmbeddingProvider) : EmbeddingManager :=
  { primary_provider_name := pn
    fallback_provider_name := fn
    cache_enabled := ce
    storage_backend := none
    providers := [(pn, pprov), (fn, fprov)]
    provider_status := [(pn, true), (fn, true)]
    failure_counts := [(pn, 0), (fn, 0)] }

/-- C7: for an EmbeddingManager whose primary provider always raises and
whose distinct fallback provider always succeeds, embed on any non-empty
input returns exactly the fallback's vectors, the primary's failure count
ends at exactly 1 (below the disable threshold of 2, so the primary stays
marked available), and the fallback's failure count stays 0. -/
theorem C7_fallback_serves_and_one_failure
    (pn fn : String) (hne : fn ≠ pn) (ce : Bool)
    (pprov fprov : EmbeddingProvider) (fbFn : List String → List Vec)
    (hp : ∀ ts, pprov.embedFn ts = none)
    (hf : ∀ ts, fprov.embedFn ts = some (fbFn ts))
    (texts : List String) (ht : texts ≠ []) :
    ((c7Manager pn fn ce pprov fprov).embed texts).1 =
        Except.ok ((fbFn texts).map some) ∧
    dgetN ((c7Manager pn fn ce pprov fprov).embed texts).2.failure_counts pn = 1 ∧
    dgetN ((c7Manager pn fn ce pprov fprov).embed texts).2.failure_counts fn = 0 := by
  have hne2 : pn ≠ fn := fun h => hne h.symm
  have hgen :
      (c7Manager pn fn ce pprov fprov).generate_embeddings texts =
        (Except.ok (fbFn texts),
         { primary_provider_name := pn, fallback_provider_name := fn,
           cache_enabled := ce, storage_backend := none,
           providers := [(pn, pprov), (fn, fprov)],
           provider_status := [(pn, true), (fn, true)],
           failure_counts := [(pn, 1), (fn, 0)] }) := by
    simp [EmbeddingManager.generate_embeddings, EmbeddingManager.is_provider_available,
      EmbeddingManager.record_failure, EmbeddingManager.max_failures,
      c7Manager, dgetN, dinsert, hp, hf, hne, hne2, beq_iff_eq]
  simp only [c7Manager] at hgen
  have hembed :
      (c7Manager pn fn ce pprov fprov).embed texts =
        (Except.ok ((fbFn texts).map some),
         { primary_provider_name := pn, fallback_provider_name := fn,
           cache_enabled := ce, storage_backend := none,
           providers := [(pn, pprov), (fn, fprov)],
           provider_status := [(pn, true), (fn, true)],
           failure_counts := [(pn, 1), (fn, 0)] }) := by
    simp [EmbeddingManager.embed, ht, c7Manager, hgen]
  rw [hembed]
  refine ⟨rfl, ?_, ?_⟩
  · simp [dgetN, beq_iff_eq]
  · simp [dgetN, beq_iff_eq, hne2]

/-- Witness for C7 at a concrete manager: primary p always raises, fallback
f returns the one-hot vector [1] per text; on the two-text input the
fallback vectors come back and the counters read 1 and 0. -/
theorem C7_fallback_serves_and_one_failure_witness :
    ((c7Manager "p" "f" false
        { name := "p", model := "mp", embedFn := fun _ => none,
          compute_text_hash := fun t => t }
        { name := "f", model := "mf",
          embedFn := fun ts => some (ts.map (fun _ => [1])),
          compute_text_hash := fun t => t }).embed ["x", "y"]).1 =
      Except.ok [some [1], some [1]] ∧
    dgetN ((c7Manager "p" "f" false
        { name := "p", model := "mp", embedFn := fun _ => none,
          compute_text_hash := fun t => t }
        { name := "f", model := "mf",
          embedFn := fun ts => some (ts.map (fun _ => [1])),
          compute_text_hash := fun t => t }).embed ["x", "y"]).2.failure_counts "p" = 1 ∧
    dgetN ((c7Manager "p" "f" false
        { name := "p", model := "mp", embedFn := fun _ => none,
          compute_text_hash := fun t => t }
        { name := "f", model := "mf",
          embedFn := fun ts => some (ts.map (fun _ => [1])),
          compute_text_hash := fun t => t }).embed ["x", "y"]).2.failure_counts "f" = 0 := by
  exact C7_fallback_serves_and_one_failure "p" "f" (by decide) false
    { name := "p", model := "mp", embedFn := fun _ => none,
      compute_text_hash := fun t => t }
    { name := "f", model := "mf",
      embedFn := fun ts => some (ts.map (fun _ => [1])),
      compute_text_hash := fun t => t }
    (fun ts => ts.map (fun _ => [1]))
    (fun _ => rfl) (fun _ => rfl) ["x", "y"] (by decide)

/-- Python str.isspace / the regex class backslash-s on ASCII text: space,
tab, newline, carriage return, vertical tab, form feed. -/
def isPyWhitespace (c : Char) : Bool :=
  c = ' ' || c = '\t' || c = '\n' || c = '\r' ||
    c = Char.ofNat 11 || c = Char.ofNat 12

/-- Python str.strip(): drop leading and trailing whitespace. -/
def pyStrip (s : List Char) : List Char :=
  ((s.dropWhile isPyWhitespace).reverse.dropWhile isPyWhitespace).reverse

/-- Python str.find(sub, start): smallest index at or after start where sub
occurs, None for Python's -1. -/
def pyFind (s sub : List Char) (start : Nat) : Option Nat :=
  (List.range (s.length + 1)).find?
    (fun p => decide (start ≤ p) && sub.isPrefixOf (s.drop p))

/-- Greedy match of the pattern newline, whitespace-star, newline at
position i (the separator regex of _chunk_with_structure): the exclusive
end of the match, i.e. one past the largest j > i such that position j
holds a newline and everything strictly between i and j is whitespace. -/
def blankLineMatchEnd (s : List Char) (i : Nat) : Option Nat :=
  if s.getD i 'a' = '\n' then
    (((List.range s.length).filter (fun j =>
        decide (i < j) && (s.getD j 'a' == '\n') &&
          (List.range (j - i - 1)).all
            (fun t => isPyWhitespace (s.getD (i + 1 + t) 'a')))).getLast?).map
      (fun j => j + 1)
  else none

/-- Left-to-right scan of re.split: find each leftmost non-overlapping
separator match and resume after it.  fuel bounds the recursion (each step
advances by at least one position, so length + 1 suffices). -/
def findBlankMatches (s : List Char) : Nat → Nat → List (Nat × Nat)
  | 0, _ => []
  | fuel + 1, i =>
      if i < s.length then
        match blankLineMatchEnd s i with
        | some e => (i, e) :: findBlankMatches s fuel e
        | none => findBlankMatches s fuel (i + 1)
      else []

/-- Cut s into the pieces between the given (start, end) match spans. -/
def splitByMatches (s : List Char) : Nat → List (Nat × Nat) → List (List Char)
  | pos, [] => [s.drop pos]
  | pos, (a, b) :: rest => (s.drop pos).take (a - pos) :: splitByMatches s b rest

/-- re.split of the blank-line separator regex, as used by
TextChunker._chunk_with_structure to split into paragraphs. -/
def reSplitBlankLines (s : List Char) : List (List Char) :=
  splitByMatches s 0 (findBlankMatches s (s.length + 1) 0)

/-- A chunk produced by the chunker (TextChunk in
memory/processing/chunker.py): the chunk text and its [start_char,
end_char) range in the original text. -/
structure TextChunk where
  text : List Char
  start_char : Nat
  end_char : Nat
deriving DecidableEq, Repr

/-- Chunker configuration (TextChunker.__init__; the constructor rejects
overlap >= chunk_size). -/
structure TextChunker where
  chunk_size : Nat
  overlap : Nat
  preserve_structure : Bool
deriving DecidableEq, Repr

/-- TextChunker._get_overlap_text: the whole text when it fits in the
overlap, otherwise the final overlap characters (all of the text when the
overlap is zero, because Python text[-0:] is the whole string), advanced
past the first space when one occurs at a positive offset. -/
def TextChunker.get_overlap_text (cfg : TextChunker) (text : List Char) :
    List Char :=
  if text.length ≤ cfg.overlap then text
  else
    let overlap_text := if cfg.overlap = 0 then text
      else text.drop (text.length - cfg.overlap)
    match pyFind overlap_text [' '] 0 with
    | some p => if 0 < p then overlap_text.drop (p + 1) else overlap_text
    | none => overlap_text

/-- Loop state of TextChunker._chunk_with_structure: emitted chunks, the
chunk being accumulated with its start offset, and the search position for
locating the next paragraph in the original text. -/
structure StructAcc where
  chunks : List TextChunk
  current_chunk : List Char
  current_start : Nat
  text_pos : Nat
deriving Repr

/-- One iteration of the paragraph loop of _chunk_with_structure: strip the
paragraph, skip it when empty, locate it in the original text, and either
flush the accumulated chunk (seeding the next one with the overlap text,
two newlines and the paragraph) when adding the paragraph would exceed
chunk_size, or append the paragraph to the accumulator. -/
def TextChunker.structStep (cfg : TextChunker) (text : List Char)
    (acc : StructAcc) (rawPara : List Char) : StructAcc :=
  let para := pyStrip rawPara
  if para = [] then acc
  else
    let para_start := (pyFind text para acc.text_pos).getD acc.text_pos
    let text_pos2 := para_start + para.length
    if cfg.chunk_size < acc.current_chunk.length + para.length + 2 ∧
        acc.current_chunk ≠ [] then
      let chunk_end := acc.current_start + acc.current_chunk.length
      let flushed : TextChunk :=
        { text := pyStrip acc.current_chunk, start_char := acc.current_start,
          end_char := chunk_end }
      let overlap_text := cfg.get_overlap_text acc.current_chunk
      { chunks := acc.chunks ++ [flushed],
        current_chunk := overlap_text ++ '\n' :: '\n' :: para,
        current_start := chunk_end - overlap_text.length,
        text_pos := text_pos2 }
    else
      if acc.current_chunk ≠ [] then
        { acc with current_chunk := acc.current_chunk ++ '\n' :: '\n' :: para,
                   text_pos := text_pos2 }
      else
        { acc with current_chunk := para, current_start := para_start,
                   text_pos := text_pos2 }

/-- TextChunker._chunk_with_structure (chunker.py lines 129-187): split on
blank lines, run the paragraph loop, then emit the final accumulated chunk
when its stripped text is non-empty, with end_char = start + the UNSTRIPPED
accumulator length. -/
def TextChunker.chunk_with_structure (cfg : TextChunker) (text : List Char) :
    List TextChunk :=
  let acc := (reSplitBlankLines text).foldl (cfg.structStep text)
    { chunks := [], current_chunk := [], current_start := 0, text_pos := 0 }
  if pyStrip acc.current_chunk ≠ [] then
    acc.chunks ++
      [{ text := pyStrip acc.current_chunk, start_char := acc.current_start,
         end_char := acc.current_start + acc.current_chunk.length }]
  else acc.chunks

/-- One window of TextChunker._chunk_sliding_window starting at i: slice up
to chunk_size characters, when the window ends mid-word scan the last 50
characters backwards for whitespace and cut there, then emit the stripped
slice unless it strips to nothing. -/
def TextChunker.windowChunk (cfg : TextChunker) (text : List Char) (i : Nat) :
    Option TextChunk :=
  let e := min (i + cfg.chunk_size) text.length
  let ct := (text.drop i).take (e - i)
  let cut :=
    if e < text.length ∧ ¬ isPyWhitespace (text.getD e 'a') then
      match (List.range (min 50 ct.length)).find?
          (fun j => isPyWhitespace (ct.getD (ct.length - (j + 1)) 'a')) with
      | some j => (ct.take (ct.length - (j + 1)), i + (ct.length - (j + 1)))
      | none => (ct, e)
    else (ct, e)
  if pyStrip cut.1 ≠ [] then
    some { text := pyStrip cut.1, start_char := i, end_char := cut.2 }
  else none

/-- TextChunker._chunk_sliding_window (chunker.py lines 189-215): windows
start at every multiple of chunk_size - overlap below the text length. -/
def TextChunker.chunk_sliding_window (cfg : TextChunker) (text : List Char) :
    List TextChunk :=
  let step := cfg.chunk_size - cfg.overlap
  (List.range ((text.length + step - 1) / step)).filterMap
    (fun k => cfg.windowChunk text (k * step))

/-- TextChunker._chunk_text_internal: the structure-preserving pass when
configured, falling back to the sliding window when it produced nothing. -/
def TextChunker.chunk_text_internal (cfg : TextChunker) (text : List Char) :
    List TextChunk :=
  let chunks := if cfg.preserve_structure then cfg.chunk_with_structure text
    else []
  if chunks = [] then cfg.chunk_sliding_window text else chunks

/-- TextChunker.chunk_text: empty/whitespace-only text yields no chunks,
anything else goes through the internal implementation.  (The source first
tries to import chunk_text from backend.fastapi_chat and only falls back to
_chunk_text_internal on ImportError; the packaged fallback path is the one
modelled, as named by the claim sources.) -/
def TextChunker.chunk_text (cfg : TextChunker) (text : List Char) :
    List TextChunk :=
  if pyStrip text = [] then [] else cfg.chunk_text_internal text

/-- Default chunker configuration (chunk_size_chars = 1000,
chunk_overlap_chars = 200, preserve_structure = True). -/
def defaultTextChunker : TextChunker :=
  { chunk_size := 1000, overlap := 200, preserve_structure := true }

/-- The five-character text a, newline, newline, newline, b. -/
def c6Text : List Char := ['a', '\n', '\n', '\n', 'b']

/-- C6: FALSIFIED BY THE CODE.  The claim says the chunk ranges always
cover every character position of the input.  On the text "a\n\n\nb" under
the default configuration (overlap 200 < chunk_size 1000), the structure
chunker splits on the three-newline separator, rejoins the two paragraphs
with a two-newline separator, and reports the single chunk range [0, 4) -
computed from the REJOINED length 4, not the original length 5 - so
position 4, the character b itself, is covered by no chunk. -/
theorem C6_chunk_ranges_do_not_cover :
    defaultTextChunker.chunk_text_internal c6Text =
      [{ text := ['a', '\n', '\n', 'b'], start_char := 0, end_char := 4 }] ∧
    ¬ (∀ pos, pos < c6Text.length →
        ∃ c ∈ defaultTextChunker.chunk_text_internal c6Text,
          c.start_char ≤ pos ∧ pos < c.end_char) := by
  constructor
  · rfl
  · decide

/-- Sequential uuid4 draws for the chunk ids assigned by
FileProcessor._create_chunks: each TextChunk becomes a ChunkInfo with a
fresh id from the supply. -/
def assignChunkIds (uuidGen : Nat → String) (file_id : String) :
    Nat → List TextChunk → List ChunkInfo
  | _, [] => []
  | ctr, tc :: rest =>
      { id := uuidGen ctr, file_id := file_id, text := String.mk tc.text,
        start_char := tc.start_char, end_char := tc.end_char } ::
        assignChunkIds uuidGen file_id (ctr + 1) rest

/-- FileProcessor._create_chunks for a non-markdown path: run the text
chunker over the content and wrap each chunk with a fresh uuid and the
owning file id.  (For paths ending in .md the source picks the
markdown-specialised chunker instead; synthetic text paths are
text_ followed by a uuid4 hex string, which never ends in .md, so that
branch is not modelled.)  Returns the chunks and the advanced uuid
counter. -/
def FileProcessor.create_chunks (cfg : TextChunker) (uuidGen : Nat → String)
    (ctr : Nat) (file_id : String) (content : String) :
    List ChunkInfo × Nat :=
  let tcs := cfg.chunk_text content.data
  (assignChunkIds uuidGen file_id ctr tcs, ctr + tcs.length)

/-- FileProcessor.process_text (file_processor.py lines 103-145) as called
by MemoryManager.ingest_text, which passes no source_id and no title: the
file id is a fresh uuid4 draw, the synthetic path is text_ followed by that
id, the stored hash is the md5 of the text, and the chunks are created
against the new file id. -/
def FileProcessor.process_text (cfg : TextChunker) (uuidGen : Nat → String)
    (md5 : HashInput → String) (ctr : Nat) (text : String) (now : ℚ) :
    FileRow × List ChunkInfo × Nat :=
  let file_id := uuidGen ctr
  let fi : FileRow :=
    { id := file_id, path := "text_" ++ file_id,
      hash := md5 (HashInput.content text), size := text.length, mtime := now }
  let cs := FileProcessor.create_chunks cfg uuidGen (ctr + 1) file_id text
  (fi, cs.1, cs.2)

/-- The embedding-and-store loop of MemoryManager.ingest_text: for each
chunk, embed_single its text (modelled by the total embedFn) and
add_chunk it with that embedding. -/
def addChunksFold (embedFn : String → Vec) (st : SQLiteBackend)
    (l : List ChunkInfo) : SQLiteBackend :=
  l.foldl (fun s c => s.add_chunk c (some (embedFn c.text))) st

/-- MemoryManager.ingest_text (manager.py lines 274-316): process the text,
add_file the new record, then embed and add every chunk; returns the new
file id with the updated storage and uuid counter. -/
def MemoryManager.ingest_text (cfg : TextChunker) (uuidGen : Nat → String)
    (md5 : HashInput → String) (embedFn : String → Vec) (now : ℚ)
    (st : SQLiteBackend) (ctr : Nat) (text : String) :
    String × SQLiteBackend × Nat :=
  let r := FileProcessor.process_text cfg uuidGen md5 ctr text now
  let st1 := st.add_file r.1
  let st2 := addChunksFold embedFn st1 r.2.1
  (r.1.id, st2, r.2.2)

/-- Freshness of the uuid supply relative to a storage state: no id the
supply will still produce occurs in the stored file ids, synthetic text
paths, or chunk owner ids (uuid4 collisions with previously drawn ids are
assumed away, as the code does). -/
def FreshIds (uuidGen : Nat → String) (ctr : Nat) (st : SQLiteBackend) : Prop :=
  ∀ n, ctr ≤ n →
    (∀ f ∈ st.files, f.id ≠ uuidGen n ∧ f.path ≠ "text_" ++ uuidGen n) ∧
    (∀ c ∈ st.chunks, c.file_id ≠ uuidGen n)

/-- Identifying projection of a stored chunk row: owner, text, range. -/
def chunkRowKey (c : ChunkRow) : String × String × Nat × Nat :=
  (c.file_id, c.text, c.start_char, c.end_char)

/-- Identifying projection of a ChunkInfo: owner, text, range. -/
def chunkInfoKey (c : ChunkInfo) : String × String × Nat × Nat :=
  (c.file_id, c.text, c.start_char, c.end_char)

theorem add_chunk_files (st : SQLiteBackend) (c : ChunkInfo) (emb : Option Vec) :
    (st.add_chunk c emb).files = st.files := by
  cases emb
  · rfl
  · simp only [SQLiteBackend.add_chunk]
    split <;> rfl

theorem add_chunk_chunks (st : SQLiteBackend) (c : ChunkInfo) (emb : Option Vec) :
    (st.add_chunk c emb).chunks = st.chunks ++
      [{ rowid := st.next_rowid, id := c.id, file_id := c.file_id,
         text := c.text, embedding := emb, start_char := c.start_char,
         end_char := c.end_char }] := by
  cases emb
  · rfl
  · simp only [SQLiteBackend.add_chunk]
    split <;> rfl

theorem addChunksFold_files (embedFn : String → Vec) (l : List ChunkInfo) :
    ∀ st : SQLiteBackend, (addChunksFold embedFn st l).files = st.files := by
  induction l with
  | nil => intro st; rfl
  | cons c rest ih =>
      intro st
      show (addChunksFold embedFn (st.add_chunk c (some (embedFn c.text))) rest).files = _
      rw [ih, add_chunk_files]

theorem addChunksFold_chunks (embedFn : String → Vec) (l : List ChunkInfo) :
    ∀ st : SQLiteBackend, ∃ extra : List ChunkRow,
      (addChunksFold embedFn st l).chunks = st.chunks ++ extra ∧
      extra.map chunkRowKey = l.map chunkInfoKey := by
  induction l with
  | nil =>
      intro st
      refine ⟨[], ?_, ?_⟩ <;> simp [addChunksFold]
  | cons c rest ih =>
      intro st
      obtain ⟨extra, he, hk⟩ := ih (st.add_chunk c (some (embedFn c.text)))
      refine ⟨({ rowid := st.next_rowid, id := c.id, file_id := c.file_id, text := c.text, embedding := some (embedFn c.text), start_char := c.start_char, end_char := c.end_char } : ChunkRow) :: extra, ?_, ?_⟩
      · show (addChunksFold embedFn (st.add_chunk c (some (embedFn c.text))) rest).chunks = _
        rw [he, add_chunk_chunks]
        simp
      · simp [hk, chunkRowKey, chunkInfoKey]

theorem assignChunkIds_map_key (uuidGen : Nat → String) (file_id : String)
    (tcs : List TextChunk) : ∀ ctr : Nat,
    (assignChunkIds uuidGen file_id ctr tcs).map chunkInfoKey =
      tcs.map (fun tc =>
        (file_id, String.mk tc.text, tc.start_char, tc.end_char)) := by
  induction tcs with
  | nil => intro ctr; rfl
  | cons tc rest ih =>
      intro ctr
      simp [assignChunkIds, chunkInfoKey, ih (ctr + 1)]

theorem string_append_left_cancel {s a b : String} (h : s ++ a = s ++ b) :
    a = b := by
  have h2 := congrArg String.data h
  simp only [String.data_append] at h2
  exact String.ext (List.append_cancel_left h2)

theorem add_file_chunks (st : SQLiteBackend) (fi : FileRow) :
    (st.add_file fi).chunks = st.chunks := rfl

/-- Shape of a single ingest_text call: the returned id is the uuid drawn
at the current counter, the counter advances past the file id and one id
per chunk, the file table gains exactly the new synthetic record (after the
REPLACE filter), and the chunk table gains rows whose owner/text/range
projections are exactly the chunker's output for the text. -/
theorem ingest_text_unfold (cfg : TextChunker) (uuidGen : Nat → String)
    (md5 : HashInput → String) (embedFn : String → Vec) (now : ℚ)
    (st : SQLiteBackend) (ctr : Nat) (text : String) :
    (MemoryManager.ingest_text cfg uuidGen md5 embedFn now st ctr text).1 =
        uuidGen ctr ∧
    (MemoryManager.ingest_text cfg uuidGen md5 embedFn now st ctr text).2.2 =
        ctr + 1 + (cfg.chunk_text text.data).length ∧
    (MemoryManager.ingest_text cfg uuidGen md5 embedFn now st ctr text).2.1.files =
        st.files.filter (fun f =>
          !(f.id == uuidGen ctr || f.path == ("text_" ++ uuidGen ctr))) ++
          [{ id := uuidGen ctr, path := "text_" ++ uuidGen ctr,
             hash := md5 (HashInput.content text), size := text.length,
             mtime := now }] ∧
    ∃ extra : List ChunkRow,
      (MemoryManager.ingest_text cfg uuidGen md5 embedFn now st ctr text).2.1.chunks =
          st.chunks ++ extra ∧
      extra.map chunkRowKey = (cfg.chunk_text text.data).map
        (fun tc => (uuidGen ctr, String.mk tc.text, tc.start_char, tc.end_char)) := by
  refine ⟨rfl, rfl, ?_, ?_⟩
  · show (addChunksFold embedFn _ _).files = _
    rw [addChunksFold_files]
    rfl
  · obtain ⟨extra, he, hk⟩ := addChunksFold_chunks embedFn
      (FileProcessor.process_text cfg uuidGen md5 ctr text now).2.1
      (st.add_file (FileProcessor.process_text cfg uuidGen md5 ctr text now).1)
    refine ⟨extra, ?_, ?_⟩
    · show (addChunksFold embedFn _ _).chunks = _
      rw [he, add_file_chunks]
    · rw [hk]
      show (assignChunkIds uuidGen (uuidGen ctr) (ctr + 1)
          (cfg.chunk_text text.data)).map chunkInfoKey = _
      rw [assignChunkIds_map_key]

theorem filter_id_nil {l : List FileRow} {w : String}
    (h : ∀ f ∈ l, f.id ≠ w) : l.filter (fun f => f.id == w) = [] := by
  rw [List.filter_eq_nil_iff]
  intro f hf
  simp [h f hf]

theorem filter_owner_nil {l : List ChunkRow} {w : String}
    (h : ∀ c ∈ l, c.file_id ≠ w) :
    l.filter (fun c => c.file_id == w) = [] := by
  rw [List.filter_eq_nil_iff]
  intro c hc
  simp [h c hc]

theorem filter_owner_self {l : List ChunkRow} {w : String}
    (h : ∀ c ∈ l, c.file_id = w) :
    l.filter (fun c => c.file_id == w) = l := by
  rw [List.filter_eq_self]
  intro c hc
  simp [h c hc]

theorem extra_owner {extra : List ChunkRow} {tcs : List TextChunk} {fid : String}
    (h : extra.map chunkRowKey = tcs.map
      (fun tc => (fid, String.mk tc.text, tc.start_char, tc.end_char))) :
    ∀ c ∈ extra, c.file_id = fid := by
  intro c hc
  have hmem : chunkRowKey c ∈ extra.map chunkRowKey := List.mem_map_of_mem _ hc
  rw [h] at hmem
  obtain ⟨tc, _, heq⟩ := List.mem_map.mp hmem
  have h1 : (chunkRowKey c).1 = fid := by rw [← heq]
  simpa [chunkRowKey] using h1

theorem extra_data {extra : List ChunkRow} {tcs : List TextChunk} {fid : String}
    (h : extra.map chunkRowKey = tcs.map
      (fun tc => (fid, String.mk tc.text, tc.start_char, tc.end_char))) :
    extra.map (fun c => (c.text, c.start_char, c.end_char)) =
      tcs.map (fun tc => (String.mk tc.text, tc.start_char, tc.end_char)) := by
  have h2 := congrArg (List.map (fun t : String × String × Nat × Nat => t.2)) h
  simpa [List.map_map, Function.comp, chunkRowKey] using h2

/-- C10: every MemoryManager.ingest_text call makes a brand-new File.
Starting from any storage whose contents are disjoint from the ids the
(injective) uuid supply will still draw, ingesting the same text twice
returns two distinct file ids, leaves exactly one file row under each id,
keeps the first ingest's chunk rows untouched, and stores for the second id
a second, independent set of chunk rows with the same text/range content as
the first set - raw-text ingestion is never de-duplicated. -/
theorem C10_ingest_text_never_deduplicated
    (cfg : TextChunker) (uuidGen : Nat → String) (md5 : HashInput → String)
    (embedFn : String → Vec) (now1 now2 : ℚ) (st : SQLiteBackend) (ctr : Nat)
    (text : String) (hinj : Function.Injective uuidGen)
    (hfresh : FreshIds uuidGen ctr st)
    (r1 r2 : String × SQLiteBackend × Nat)
    (hr1 : r1 = MemoryManager.ingest_text cfg uuidGen md5 embedFn now1 st ctr text)
    (hr2 : r2 = MemoryManager.ingest_text cfg uuidGen md5 embedFn now2
      r1.2.1 r1.2.2 text) :
    r1.1 ≠ r2.1 ∧
    (r2.2.1.files.filter (fun f => f.id == r1.1)).length = 1 ∧
    (r2.2.1.files.filter (fun f => f.id == r2.1)).length = 1 ∧
    r2.2.1.chunks.filter (fun c => c.file_id == r1.1) =
      r1.2.1.chunks.filter (fun c => c.file_id == r1.1) ∧
    (r2.2.1.chunks.filter (fun c => c.file_id == r2.1)).map
        (fun c => (c.text, c.start_char, c.end_char)) =
      (r1.2.1.chunks.filter (fun c => c.file_id == r1.1)).map
        (fun c => (c.text, c.start_char, c.end_char)) := by
  obtain ⟨hid1, hctr1, hfiles1, extra1, hch1, hk1⟩ :=
    ingest_text_unfold cfg uuidGen md5 embedFn now1 st ctr text
  obtain ⟨hid2, hctr2, hfiles2, extra2, hch2, hk2⟩ :=
    ingest_text_unfold cfg uuidGen md5 embedFn now2 r1.2.1 r1.2.2 text
  rw [← hr1] at hid1 hctr1 hfiles1 hch1
  rw [← hr2] at hid2 hctr2 hfiles2 hch2
  rw [hr1] at hid2 hctr2 hfiles2 hch2 hk2
  rw [← hr1] at hid2 hctr2 hfiles2 hch2 hk2
  have hctrlt : ctr < r1.2.2 := by rw [hctr1]; omega
  have hidne : uuidGen ctr ≠ uuidGen r1.2.2 := by
    intro h
    exact absurd (hinj h) (Nat.ne_of_lt hctrlt)
  have hne : r1.1 ≠ r2.1 := by
    rw [hid1, hid2]
    exact hidne
  have hpathne : ("text_" ++ uuidGen ctr) ≠ ("text_" ++ uuidGen r1.2.2) := by
    intro h
    exact hidne (string_append_left_cancel h)
  have hctrle : ctr ≤ r1.2.2 := Nat.le_of_lt hctrlt
  have hf1self :
      st.files.filter (fun f =>
        !(f.id == uuidGen ctr || f.path == ("text_" ++ uuidGen ctr))) =
        st.files := by
    apply List.filter_eq_self.mpr
    intro f hf
    have h := (hfresh ctr le_rfl).1 f hf
    simp [h.1, h.2]
  have hfiles1b : r1.2.1.files = st.files ++
      [{ id := uuidGen ctr, path := "text_" ++ uuidGen ctr,
         hash := md5 (HashInput.content text), size := text.length,
         mtime := now1 }] := by
    rw [hfiles1, hf1self]
  have hf2self : (r1.2.1.files).filter (fun f =>
      !(f.id == uuidGen r1.2.2 || f.path == ("text_" ++ uuidGen r1.2.2))) =
      r1.2.1.files := by
    apply List.filter_eq_self.mpr
    intro f hf
    rw [hfiles1b] at hf
    rcases List.mem_append.mp hf with hf | hf
    · have h := (hfresh r1.2.2 hctrle).1 f hf
      simp [h.1, h.2]
    · have hfeq : f = { id := uuidGen ctr, path := "text_" ++ uuidGen ctr, hash := md5 (HashInput.content text), size := text.length, mtime := now1 } := by simpa using hf
      subst hfeq
      simp [hidne, hpathne]
  have hfiles2b : r2.2.1.files = (st.files ++
      [{ id := uuidGen ctr, path := "text_" ++ uuidGen ctr,
         hash := md5 (HashInput.content text), size := text.length,
         mtime := now1 }]) ++
      [{ id := uuidGen r1.2.2, path := "text_" ++ uuidGen r1.2.2,
         hash := md5 (HashInput.content text), size := text.length,
         mtime := now2 }] := by
    rw [hfiles2, hf2self, hfiles1b]
  have hstnone1 : ∀ f ∈ st.files, f.id ≠ uuidGen ctr :=
    fun f hf => ((hfresh ctr le_rfl).1 f hf).1
  have hstnone2 : ∀ f ∈ st.files, f.id ≠ uuidGen r1.2.2 :=
    fun f hf => ((hfresh r1.2.2 hctrle).1 f hf).1
  have howner1 : ∀ c ∈ extra1, c.file_id = uuidGen ctr := extra_owner hk1
  have howner2 : ∀ c ∈ extra2, c.file_id = uuidGen r1.2.2 := extra_owner hk2
  have hextra2not1 : ∀ c ∈ extra2, c.file_id ≠ uuidGen ctr :=
    fun c hc h => hidne (h.symm.trans (howner2 c hc))
  have hextra1not2 : ∀ c ∈ extra1, c.file_id ≠ uuidGen r1.2.2 :=
    fun c hc h => hidne ((howner1 c hc).symm.trans h)
  have hstc1 : ∀ c ∈ st.chunks, c.file_id ≠ uuidGen ctr :=
    fun c hc => (hfresh ctr le_rfl).2 c hc
  have hstc2 : ∀ c ∈ st.chunks, c.file_id ≠ uuidGen r1.2.2 :=
    fun c hc => (hfresh r1.2.2 hctrle).2 c hc
  refine ⟨hne, ?_, ?_, ?_, ?_⟩
  · rw [hid1, hfiles2b]
    rw [List.filter_append, List.filter_append]
    rw [filter_id_nil hstnone1]
    simp [hidne.symm]
  · rw [hid2, hfiles2b]
    rw [List.filter_append, List.filter_append]
    rw [filter_id_nil hstnone2]
    simp [hidne]
  · rw [hid1, hch2, hch1, List.filter_append, List.filter_append]
    rw [filter_owner_nil hextra2not1]
    simp
  · rw [hid1, hid2, hch2, hch1]
    rw [List.filter_append, List.filter_append, List.filter_append]
    rw [filter_owner_nil hstc2, filter_owner_nil hextra1not2,
        filter_owner_self howner2, filter_owner_nil hstc1,
        filter_owner_self howner1]
    simp only [List.nil_append]
    rw [extra_data hk2, extra_data hk1]

/-- Concrete stand-in for the uuid4 supply: the n-th draw is n repetitions
of the letter u, so distinct draws are distinct strings. -/
def uuidMock (n : Nat) : String := String.mk (List.replicate n 'u')

theorem uuidMock_injective : Function.Injective uuidMock := by
  intro a b h
  have h2 := congrArg (fun s => s.data.length) h
  simpa [uuidMock] using h2

/-- First ingest of the text hello into an empty backend. -/
def c10First : String × SQLiteBackend × Nat :=
  MemoryManager.ingest_text defaultTextChunker uuidMock (fun _ => "h")
    (fun _ => [0]) 1 (SQLiteBackend.empty false) 0 "hello"

/-- Second ingest of the same text into the resulting state. -/
def c10Second : String × SQLiteBackend × Nat :=
  MemoryManager.ingest_text defaultTextChunker uuidMock (fun _ => "h")
    (fun _ => [0]) 2 c10First.2.1 c10First.2.2 "hello"

/-- Witness for C10: ingesting hello twice into an empty backend yields two
distinct file ids, one file row for each, the first chunks untouched and an
equal-content independent second chunk set. -/
theorem C10_ingest_text_never_deduplicated_witness :
    c10First.1 ≠ c10Second.1 ∧
    (c10Second.2.1.files.filter (fun f => f.id == c10First.1)).length = 1 ∧
    (c10Second.2.1.files.filter (fun f => f.id == c10Second.1)).length = 1 ∧
    c10Second.2.1.chunks.filter (fun c => c.file_id == c10First.1) =
      c10First.2.1.chunks.filter (fun c => c.file_id == c10First.1) ∧
    (c10Second.2.1.chunks.filter (fun c => c.file_id == c10Second.1)).map
        (fun c => (c.text, c.start_char, c.end_char)) =
      (c10First.2.1.chunks.filter (fun c => c.file_id == c10First.1)).map
        (fun c => (c.text, c.start_char, c.end_char)) := by
  exact C10_ingest_text_never_deduplicated defaultTextChunker uuidMock
    (fun _ => "h") (fun _ => [0]) 1 2 (SQLiteBackend.empty false) 0 "hello"
    uuidMock_injective
    (by
      intro n _
      constructor
      · intro f hf
        simp [SQLiteBackend.empty] at hf
      · intro c hc
        simp [SQLiteBackend.empty] at hc)
    c10First c10Second rfl rfl

/-- A search result as the hybrid merge manipulates it (SearchResult in
memory/models.py): the merge reads only the span key (file_id, start_char)
and the score, and rewrites the score; the text/excerpt/metadata fields it
copies along are not modelled. -/
structure SResult where
  file_id : String
  start_char : Nat
  score : ℚ
deriving DecidableEq, Repr

/-- Span key used by HybridSearch._merge_results: the string
file_id:start_char. -/
def skey (r : SResult) : String := r.file_id ++ ":" ++ toString r.start_char

/-- The three dictionaries _merge_results builds: result_map,
vector_scores, keyword_scores. -/
structure MergeAcc where
  result_map : List (String × SResult)
  vector_scores : List (String × ℚ)
  keyword_scores : List (String × ℚ)
deriving Repr

/-- Processing of one vector result (hybrid.py lines 157-160):
result_map[key] = result and vector_scores[key] = result.score. -/
def processVector (acc : MergeAcc) (r : SResult) : MergeAcc :=
  { result_map := dinsert acc.result_map (skey r) r,
    vector_scores := dinsert acc.vector_scores (skey r) r.score,
    keyword_scores := acc.keyword_scores }

/-- Processing of one keyword result (hybrid.py lines 163-186): when the
key is already present only excerpt/metadata of the existing entry are
touched (fields not modelled); otherwise the result is added with
vector_scores[key] = 0; in both cases keyword_scores[key] = result.score. -/
def processKeyword (acc : MergeAcc) (r : SResult) : MergeAcc :=
  let k := skey r
  let acc2 :=
    if acc.result_map.any (fun p => p.1 == k) then acc
    else { acc with result_map := dinsert acc.result_map k r,
                    vector_scores := dinsert acc.vector_scores k 0 }
  { acc2 with keyword_scores := dinsert acc2.keyword_scores k r.score }

/-- Python list.sort(key=score, reverse=True): stable descending sort. -/
def sortByScoreDesc (l : List SResult) : List SResult :=
  l.mergeSort (fun a b => decide (b.score ≤ a.score))

/-- HybridSearch._merge_results (hybrid.py lines 132-221): build the three
dictionaries from the vector results then the keyword results, give every
entry the combined score vector x vw + keyword x kw with a 1.1 factor when
both looked-up scores are positive, clamp at 1.0, and sort descending. -/
def HybridSearch.merge_results (vres kres : List SResult) (vw kw : ℚ) :
    List SResult :=
  let acc1 := vres.foldl processVector
    { result_map := [], vector_scores := [], keyword_scores := [] }
  let acc := kres.foldl processKeyword acc1
  sortByScoreDesc (acc.result_map.map (fun p =>
    let v := dgetQ acc.vector_scores p.1
    let k := dgetQ acc.keyword_scores p.1
    let combined := v * vw + k * kw
    let boosted := if 0 < v ∧ 0 < k then combined * (11 / 10) else combined
    { p.2 with score := min 1 boosted }))

/-- Tail of HybridSearch._hybrid_search (hybrid.py lines 104-118): the
weights handed to _merge_results are options.vector_weight or 0.7 and
options.keyword_weight or 0.3 - Python's or substitutes the default both
for None and for a weight of 0.0 (falsy) - then the merged list is filtered
by the caller's min_score and truncated to the caller's max_results. -/
def HybridSearch.hybrid_merge (opts : SearchOptions) (vres kres : List SResult) :
    List SResult :=
  let vw := match opts.vector_weight with
    | some w => if w = 0 then 7 / 10 else w
    | none => 7 / 10
  let kw := match opts.keyword_weight with
    | some w => if w = 0 then 3 / 10 else w
    | none => 3 / 10
  ((HybridSearch.merge_results vres kres vw kw).filter
    (fun r => opts.min_score ≤ r.score)).take opts.max_results

/-- Score a result set assigns to a span key, as the spec words it: the
result's score when the span is in the set, otherwise 0. -/
def specLookupScore (l : List SResult) (k : String) : ℚ :=
  match l.find? (fun r => skey r == k) with
  | some r => r.score
  | none => 0

/-- Combined score of the specification: vector x vw + keyword x kw, a mode
that did not return the span contributing 0, multiplied by 1.1 when the
span appears in both sets. -/
def specCombinedScore (vres kres : List SResult) (vw kw : ℚ) (k : String) : ℚ :=
  let c := specLookupScore vres k * vw + specLookupScore kres k * kw
  if vres.any (fun r => skey r == k) ∧ kres.any (fun r => skey r == k) then
    c * (11 / 10)
  else c

/-- The distinct spans of the two result sets, vector results first. -/
def specCandidates (vres kres : List SResult) : List SResult :=
  vres ++ kres.filter (fun r => !(vres.any (fun v => skey v == skey r)))

/-- Specification of the ranked merge: every distinct span scored by
specCombinedScore, clamped at 1.0, sorted descending. -/
def specHybridRanked (vres kres : List SResult) (vw kw : ℚ) : List SResult :=
  sortByScoreDesc ((specCandidates vres kres).map (fun r =>
    { r with score := min 1 (specCombinedScore vres kres vw kw (skey r)) }))

/-- The full claimed pipeline at the caller's own weights (defaults 0.7/0.3
only when a weight is unset): rank by the spec's combined score, filter by
the caller's min_score, truncate to the caller's max_results. -/
def specHybridClaim (opts : SearchOptions) (vres kres : List SResult) :
    List SResult :=
  ((specHybridRanked vres kres (opts.vector_weight.getD (7 / 10))
      (opts.keyword_weight.getD (3 / 10))).filter
    (fun r => opts.min_score ≤ r.score)).take opts.max_results

theorem dinsert_append {α : Type} {m : List (String × α)} {k : String} {v : α}
    (h : m.any (fun p => p.1 == k) = false) : dinsert m k v = m ++ [(k, v)] := by
  simp [dinsert, h]

theorem dgetQ_map_score (l : List SResult) (k : String) :
    dgetQ (l.map (fun r => (skey r, r.score))) k = specLookupScore l k := by
  induction l with
  | nil => rfl
  | cons r rest ih =>
      by_cases h : (skey r == k) = true
      · simp [dgetQ, specLookupScore, List.find?_cons, h]
      · rw [Bool.not_eq_true] at h
        simp only [dgetQ, specLookupScore, List.map_cons, List.find?_cons, h]
        exact ih

theorem dgetQ_append (l1 l2 : List (String × ℚ)) (k : String) :
    dgetQ (l1 ++ l2) k =
      if l1.any (fun p => p.1 == k) then dgetQ l1 k else dgetQ l2 k := by
  simp only [dgetQ, List.find?_append]
  by_cases h : (l1.find? (fun p => p.1 == k)).isSome
  · obtain ⟨p, hp⟩ := Option.isSome_iff_exists.mp h
    have hany : l1.any (fun p => p.1 == k) = true := by
      rcases List.find?_eq_some.mp hp with ⟨hpk, as, bs, hl, _⟩
      exact List.any_eq_true.mpr ⟨p, by rw [hl]; simp, hpk⟩
    simp [hp, hany]
  · rw [Option.not_isSome_iff_eq_none] at h
    have hany : l1.any (fun p => p.1 == k) = false := by
      rw [List.any_eq_false]
      intro q hq
      have h3 := List.find?_eq_none.mp h q hq
      simpa using h3
    simp [h, hany]

theorem dgetQ_map_zero (l : List SResult) (k : String) :
    dgetQ (l.map (fun r => (skey r, (0:ℚ)))) k = 0 := by
  induction l with
  | nil => rfl
  | cons r rest ih =>
      by_cases h : (skey r == k) = true
      · simp [dgetQ, List.find?_cons, h]
      · rw [Bool.not_eq_true] at h
        simp only [dgetQ, List.map_cons, List.find?_cons, h]
        exact ih

theorem foldl_processVector (vres : List SResult) :
    ∀ acc : MergeAcc, (vres.map skey).Nodup →
    (∀ r ∈ vres, acc.result_map.any (fun p => p.1 == skey r) = false) →
    (∀ r ∈ vres, acc.vector_scores.any (fun p => p.1 == skey r) = false) →
    vres.foldl processVector acc =
      { result_map := acc.result_map ++ vres.map (fun r => (skey r, r)),
        vector_scores := acc.vector_scores ++ vres.map (fun r => (skey r, r.score)),
        keyword_scores := acc.keyword_scores } := by
  induction vres with
  | nil => intro acc _ _ _; simp
  | cons r rest ih =>
      intro acc hnd h1 h2
      have hknot : skey r ∉ rest.map skey := (List.nodup_cons.mp hnd).1
      have hrest : (rest.map skey).Nodup := (List.nodup_cons.mp hnd).2
      have hk1 : acc.result_map.any (fun p => p.1 == skey r) = false :=
        h1 r (List.mem_cons_self r rest)
      have hk2 : acc.vector_scores.any (fun p => p.1 == skey r) = false :=
        h2 r (List.mem_cons_self r rest)
      have hstep : processVector acc r =
          { result_map := acc.result_map ++ [(skey r, r)],
            vector_scores := acc.vector_scores ++ [(skey r, r.score)],
            keyword_scores := acc.keyword_scores } := by
        simp [processVector, dinsert_append hk1, dinsert_append hk2]
      show rest.foldl processVector (processVector acc r) = _
      rw [hstep, ih _ hrest ?c1 ?c2]
      · simp
      case c1 =>
        intro x hx
        have hne : skey r ≠ skey x := by
          intro hkeq
          exact hknot (hkeq ▸ List.mem_map_of_mem skey hx)
        simp [List.any_append, h1 x (List.mem_cons_of_mem r hx), hne]
      case c2 =>
        intro x hx
        have hne : skey r ≠ skey x := by
          intro hkeq
          exact hknot (hkeq ▸ List.mem_map_of_mem skey hx)
        simp [List.any_append, h2 x (List.mem_cons_of_mem r hx), hne]

theorem any_fst {α : Type} (l : List (String × α)) (k : String) :
    (l.map Prod.fst).any (fun x => x == k) = l.any (fun p => p.1 == k) := by
  induction l with
  | nil => rfl
  | cons p rest ih => simp [ih]

theorem foldl_processKeyword (kres : List SResult) :
    ∀ acc : MergeAcc, (kres.map skey).Nodup →
    (∀ r ∈ kres, acc.keyword_scores.any (fun p => p.1 == skey r) = false) →
    (acc.result_map.map Prod.fst = acc.vector_scores.map Prod.fst) →
    kres.foldl processKeyword acc =
      { result_map := acc.result_map ++
          (kres.filter (fun r =>
            !(acc.result_map.any (fun p => p.1 == skey r)))).map
              (fun r => (skey r, r)),
        vector_scores := acc.vector_scores ++
          (kres.filter (fun r =>
            !(acc.result_map.any (fun p => p.1 == skey r)))).map
              (fun r => (skey r, (0:ℚ))),
        keyword_scores := acc.keyword_scores ++
          kres.map (fun r => (skey r, r.score)) } := by
  induction kres with
  | nil => intro acc _ _ _; simp
  | cons r rest ih =>
      intro acc hnd hkws hkeys
      have hknot : skey r ∉ rest.map skey := (List.nodup_cons.mp hnd).1
      have hrest : (rest.map skey).Nodup := (List.nodup_cons.mp hnd).2
      have hkfresh : acc.keyword_scores.any (fun p => p.1 == skey r) = false :=
        hkws r (List.mem_cons_self r rest)
      have hnedup : ∀ x ∈ rest, (skey r == skey x) = false := by
        intro x hx
        have hne : skey r ≠ skey x := by
          intro hkeq
          exact hknot (hkeq ▸ List.mem_map_of_mem skey hx)
        simp [hne]
      by_cases hin : acc.result_map.any (fun p => p.1 == skey r) = true
      · have hstep : processKeyword acc r =
            { result_map := acc.result_map,
              vector_scores := acc.vector_scores,
              keyword_scores := acc.keyword_scores ++ [(skey r, r.score)] } := by
          simp [processKeyword, hin, dinsert_append hkfresh]
        show rest.foldl processKeyword (processKeyword acc r) = _
        rw [hstep, ih _ hrest ?kc1 ?kc2]
        · simp [List.filter_cons, hin]
        case kc1 =>
          intro x hx
          simp [List.any_append, hkws x (List.mem_cons_of_mem r hx), hnedup x hx]
        case kc2 => exact hkeys
      · rw [Bool.not_eq_true] at hin
        have hvecfresh : acc.vector_scores.any (fun p => p.1 == skey r) = false := by
          rw [← any_fst, ← hkeys, any_fst]
          exact hin
        have hstep : processKeyword acc r =
            { result_map := acc.result_map ++ [(skey r, r)],
              vector_scores := acc.vector_scores ++ [(skey r, (0:ℚ))],
              keyword_scores := acc.keyword_scores ++ [(skey r, r.score)] } := by
          simp [processKeyword, hin, dinsert_append hin,
            dinsert_append hvecfresh, dinsert_append hkfresh]
        show rest.foldl processKeyword (processKeyword acc r) = _
        rw [hstep, ih _ hrest ?kc3 ?kc4]
        · have hfilt : ∀ l : List SResult, (∀ x ∈ l, (skey r == skey x) = false) →
              l.filter (fun x =>
                !((acc.result_map ++ [(skey r, r)]).any (fun p => p.1 == skey x))) =
              l.filter (fun x =>
                !(acc.result_map.any (fun p => p.1 == skey x))) := by
            intro l hl
            apply List.filter_congr
            intro x hx
            simp [List.any_append, hl x hx]
          rw [hfilt rest hnedup]
          simp [List.filter_cons, hin]
        case kc3 =>
          intro x hx
          simp [List.any_append, hkws x (List.mem_cons_of_mem r hx), hnedup x hx]
        case kc4 =>
          simp [hkeys]

theorem any_key_map {β : Type} (l : List SResult) (g : SResult → β) (k : String) :
    (l.map (fun r => (skey r, g r))).any (fun p => p.1 == k) =
      l.any (fun r => skey r == k) := by
  induction l with
  | nil => rfl
  | cons r rest ih => simp [ih]

theorem specLookup_eq_zero {l : List SResult} {k : String}
    (h : l.any (fun r => skey r == k) = false) : specLookupScore l k = 0 := by
  have hfind : l.find? (fun r => skey r == k) = none := by
    rw [List.find?_eq_none]
    intro x hx
    rw [List.any_eq_false] at h
    simpa using h x hx
  simp [specLookupScore, hfind]

theorem specLookup_pos {l : List SResult} (h : ∀ r ∈ l, 0 < r.score)
    (k : String) :
    0 < specLookupScore l k ↔ l.any (fun r => skey r == k) = true := by
  constructor
  · intro hpos
    by_contra hany
    rw [Bool.not_eq_true] at hany
    rw [specLookup_eq_zero hany] at hpos
    exact lt_irrefl 0 hpos
  · intro hany
    obtain ⟨r, hr, hk⟩ := List.any_eq_true.mp hany
    cases hfind : l.find? (fun r => skey r == k) with
    | none =>
        rw [List.find?_eq_none] at hfind
        exact absurd hk (by simpa using hfind r hr)
    | some r2 =>
        have hr2 : r2 ∈ l := List.mem_of_find?_eq_some hfind
        simpa [specLookupScore, hfind] using h r2 hr2

/-- C5 (amended): for result sets with pairwise-distinct span keys and
positive scores (which the sub-searches guarantee via their positive
expanded min_score floor), and caller weights that are set and nonzero,
the hybrid pipeline equals the specified one: every distinct span scored
vector x vw + keyword x kw with the 1.1 both-modes factor, clamped at 1.0,
sorted descending, filtered by the caller's min_score, truncated to the
caller's max_results.  (The zero-weight escape hatch - Python's
weight-or-default substituting 0.7/0.3 for a weight of exactly 0.0 - is
the corrected part; see the counterexample.) -/
theorem C5_hybrid_merge_amended (opts : SearchOptions)
    (vres kres : List SResult) (vw kw : ℚ)
    (hvw : opts.vector_weight = some vw) (hkw : opts.keyword_weight = some kw)
    (hvw0 : vw ≠ 0) (hkw0 : kw ≠ 0) (hsum : vw + kw = 1)
    (hnv : (vres.map skey).Nodup) (hnk : (kres.map skey).Nodup)
    (hpv : ∀ r ∈ vres, 0 < r.score) (hpk : ∀ r ∈ kres, 0 < r.score) :
    HybridSearch.hybrid_merge opts vres kres =
      ((specHybridRanked vres kres vw kw).filter
        (fun r => opts.min_score ≤ r.score)).take opts.max_results := by
  have hw : HybridSearch.hybrid_merge opts vres kres =
      ((HybridSearch.merge_results vres kres vw kw).filter
        (fun r => opts.min_score ≤ r.score)).take opts.max_results := by
    simp only [HybridSearch.hybrid_merge, hvw, hkw]
    rw [if_neg hvw0, if_neg hkw0]
  rw [hw]
  have hcore : HybridSearch.merge_results vres kres vw kw =
      specHybridRanked vres kres vw kw := by
    have hacc1 : vres.foldl processVector
        { result_map := [], vector_scores := [], keyword_scores := [] } =
        { result_map := vres.map (fun r => (skey r, r)),
          vector_scores := vres.map (fun r => (skey r, r.score)),
          keyword_scores := [] } := by
      rw [foldl_processVector vres _ hnv (by intro r _; rfl) (by intro r _; rfl)]
      simp
    have hkeysEq :
        (vres.map (fun r => (skey r, r))).map Prod.fst =
          (vres.map (fun r => (skey r, r.score))).map Prod.fst := by
      simp [List.map_map]
    have hacc2 := foldl_processKeyword kres
      { result_map := vres.map (fun r => (skey r, r)),
        vector_scores := vres.map (fun r => (skey r, r.score)),
        keyword_scores := [] } hnk (by intro r _; rfl) hkeysEq
    have hP : ∀ l : List SResult,
        l.filter (fun r =>
          !((vres.map (fun v => (skey v, v))).any (fun p => p.1 == skey r))) =
        l.filter (fun r => !(vres.any (fun v => skey v == skey r))) := by
      intro l
      apply List.filter_congr
      intro x _
      rw [any_key_map]
    simp only [List.nil_append] at hacc2
    simp only [HybridSearch.merge_results]
    rw [hacc1, hacc2]
    simp only [hP]
    unfold specHybridRanked
    congr 1
    simp only [specCandidates]
    rw [← List.map_append, List.map_map]
    apply List.map_congr_left
    intro x hx
    have hv : dgetQ (vres.map (fun r => (skey r, r.score)) ++
        (kres.filter (fun r => !(vres.any (fun v => skey v == skey r)))).map
          (fun r => (skey r, (0:ℚ)))) (skey x) =
        specLookupScore vres (skey x) := by
      rw [dgetQ_append]
      by_cases hc : (vres.map (fun r => (skey r, r.score))).any
          (fun p => p.1 == skey x) = true
      · rw [if_pos hc, dgetQ_map_score]
      · rw [Bool.not_eq_true] at hc
        rw [if_neg (by rw [hc]; exact Bool.false_ne_true), dgetQ_map_zero]
        rw [any_key_map] at hc
        rw [specLookup_eq_zero hc]
    have hkv : dgetQ (kres.map (fun r => (skey r, r.score))) (skey x) =
        specLookupScore kres (skey x) := dgetQ_map_score kres (skey x)
    simp only [Function.comp]
    rw [hv, hkv]
    have hcond : (0 < specLookupScore vres (skey x) ∧
        0 < specLookupScore kres (skey x)) ↔
        (vres.any (fun r => skey r == skey x) = true ∧
          kres.any (fun r => skey r == skey x) = true) :=
      and_congr (specLookup_pos hpv (skey x)) (specLookup_pos hpk (skey x))
    simp only [specCombinedScore]
    rw [if_congr hcond rfl rfl]
  rw [hcore]

/-- Witness for the amended C5 at the default weights 0.7/0.3, one vector
result and no keyword results. -/
theorem C5_hybrid_merge_amended_witness :
    HybridSearch.hybrid_merge
      { mode := "hybrid", max_results := 10, min_score := 0,
        vector_weight := some (7/10), keyword_weight := some (3/10) }
      [{ file_id := "f", start_char := 0, score := 1 }] [] =
    ((specHybridRanked [{ file_id := "f", start_char := 0, score := 1 }] []
        (7/10) (3/10)).filter (fun r => (0:ℚ) ≤ r.score)).take 10 := by
  exact C5_hybrid_merge_amended
    { mode := "hybrid", max_results := 10, min_score := 0,
      vector_weight := some (7/10), keyword_weight := some (3/10) }
    [{ file_id := "f", start_char := 0, score := 1 }] [] (7/10) (3/10)
    rfl rfl (by norm_num) (by norm_num) (by norm_num)
    (by simp) (by simp)
    (by intro r hr; simp at hr; rw [hr]; norm_num)
    (by intro r hr; simp at hr)

/-- C5 counterexample: with the valid caller weights vector_weight = 0.0
and keyword_weight = 1.0 (which sum to 1.0), the pipeline does not compute
the claimed combined scores: Python's weight-or-default treats the 0.0
weight as falsy and silently substitutes 0.7, so a vector-only span gets
score 0.7 where the claim's formula 1.0 x 0.0 + 0 x 1.0 = 0 demands 0. -/
theorem C5_hybrid_merge_counterexample :
    HybridSearch.hybrid_merge
      { mode := "hybrid", max_results := 10, min_score := 0,
        vector_weight := some 0, keyword_weight := some 1 }
      [{ file_id := "f", start_char := 0, score := 1 }] [] ≠
    specHybridClaim
      { mode := "hybrid", max_results := 10, min_score := 0,
        vector_weight := some 0, keyword_weight := some 1 }
      [{ file_id := "f", start_char := 0, score := 1 }] [] := by
  have h1 : HybridSearch.hybrid_merge
      { mode := "hybrid", max_results := 10, min_score := 0,
        vector_weight := some 0, keyword_weight := some 1 }
      [{ file_id := "f", start_char := 0, score := 1 }] [] =
      [{ file_id := "f", start_char := 0, score := 7/10 }] := by
    simp only [HybridSearch.hybrid_merge, HybridSearch.merge_results,
      List.foldl_cons, List.foldl_nil, processVector, dinsert, dgetQ,
      sortByScoreDesc, List.any_nil, Bool.false_eq_true, if_false,
      List.nil_append, List.map_cons, List.map_nil, List.find?_cons,
      beq_self_eq_true, List.find?_nil]
    norm_num
  have h2 : specHybridClaim
      { mode := "hybrid", max_results := 10, min_score := 0,
        vector_weight := some 0, keyword_weight := some 1 }
      [{ file_id := "f", start_char := 0, score := 1 }] [] =
      [{ file_id := "f", start_char := 0, score := 0 }] := by
    simp only [specHybridClaim, specHybridRanked, specCandidates,
      specCombinedScore, specLookupScore, sortByScoreDesc, Option.getD_some,
      List.filter_nil, List.append_nil, List.map_cons, List.map_nil,
      List.find?_cons, beq_self_eq_true, List.any_cons, List.any_nil,
      List.find?_nil]
    norm_num
  rw [h1, h2]
  intro h
  have h3 := List.head_eq_of_cons_eq h
  have h4 := congrArg SResult.score h3
  norm_num at h4
